import Mathlib

/-!
# Verification of the command-line boot layer of `hinego/gen` (`boot.go`)

The development embeds `boot.go` shallowly:

* `CmdParams`, `YamlConfig`, the `DBType` constants and `DefaultOutPath`;
* `loadConfigFile` and `ArgParse` (the file layer and the flag layer of the
  configuration resolver);
* `Connect` (driver dispatch);
* `genModels` (one generated model per table).

Everything the Go code reaches outside the repository (the file system, the
YAML decoder, the `flag` package, `gorm.Open`, the migrator, the generator
methods) is a parameter of the embedding, so that every theorem holds for all
behaviours of those collaborators.
-/

set_option autoImplicit false

namespace Gen

/-! ## Data model -/

/-- Go `type DBType string`. -/
abbrev DBType := String

/-- Constant `DbMySQL`. -/
def DbMySQL : DBType := "mysql"
/-- Constant `DbPostgres`. -/
def DbPostgres : DBType := "postgres"
/-- Constant `DbSQLite`. -/
def DbSQLite : DBType := "sqlite"
/-- Constant `DbSQLServer`. -/
def DbSQLServer : DBType := "sqlserver"

/-- Constant `DefaultOutPath`, documented in the source as the default path. -/
def DefaultOutPath : String := "./dao/query"

/-- Go `struct CmdParams`: the command line parameters. -/
structure CmdParams where
  DSN : String
  DB : String
  Tables : List String
  OnlyModel : Bool
  OutPath : String
  OutFile : String
  WithUnitTest : Bool
  ModelPkgName : String
  FieldNullable : Bool
  FieldWithIndexTag : Bool
  FieldWithTypeTag : Bool
  FieldSignable : Bool
deriving DecidableEq, Repr

/-- The Go zero value of `CmdParams`, the value of `var cmdParse CmdParams`. -/
def CmdParams.zero : CmdParams :=
  { DSN := "", DB := "", Tables := [], OnlyModel := false, OutPath := "",
    OutFile := "", WithUnitTest := false, ModelPkgName := "",
    FieldNullable := false, FieldWithIndexTag := false,
    FieldWithTypeTag := false, FieldSignable := false }

/-- Go `struct YamlConfig`; `Database` is a pointer, `none` is the nil pointer. -/
structure YamlConfig where
  Version : String
  Database : Option CmdParams
deriving DecidableEq, Repr

/-- The two external calls of `loadConfigFile`: `os.Open` on a path, and
`yaml.NewDecoder(file).Decode` into a fresh `YamlConfig`. -/
structure FileSystem (File Err : Type) where
  osOpen : String → Except Err File
  yamlDecode : File → Except Err YamlConfig

/-- Embedding of `loadConfigFile`: an open error or a decode error is returned
as it is, otherwise the `Database` pointer of the decoded document. -/
def loadConfigFile {File Err : Type} (fs : FileSystem File Err) (path : String) :
    Except Err (Option CmdParams) :=
  match fs.osOpen path with
  | .error err => .error err
  | .ok file =>
    match fs.yamlDecode file with
    | .error cmdErr => .error cmdErr
    | .ok yamlConfig => .ok yamlConfig.Database

/-- The thirteen flag variables of `ArgParse` as they stand after
`flag.Parse()`. -/
structure Flags where
  genPath : String
  dsn : String
  db : String
  tableList : String
  onlyModel : Bool
  outPath : String
  outFile : String
  withUnitTest : Bool
  modelPkgName : String
  fieldNullable : Bool
  fieldWithIndexTag : Bool
  fieldWithTypeTag : Bool
  fieldSignable : Bool
deriving DecidableEq, Repr

/-- The defaults registered by the `flag.String` and `flag.Bool` calls of
`ArgParse`: what every flag variable holds when no flag is given. -/
def registeredDefaults : Flags :=
  { genPath := "", dsn := "", db := "mysql", tableList := "",
    onlyModel := false, outPath := "./dao/query", outFile := "",
    withUnitTest := false, modelPkgName := "", fieldNullable := false,
    fieldWithIndexTag := false, fieldWithTypeTag := false,
    fieldSignable := false }

/-! ## `strings.Split` with the separator `","` -/

/-- Scan of `strings.Split`: `cur` holds, reversed, the piece being read; a
separator closes the piece, the end of the input closes the last one. -/
def splitScan (sep : Char) : List Char → List Char → List (List Char)
  | cur, [] => [cur.reverse]
  | cur, c :: cs =>
    if c = sep then cur.reverse :: splitScan sep [] cs
    else splitScan sep (c :: cur) cs

/-- Go `strings.Split(s, sep)` for a one-character separator (the only call in
`boot.go` passes `","`): all pieces of `s` between separators, in order. The
comma is a one-byte character that occurs inside no longer UTF-8 sequence, so
splitting by characters and splitting by bytes give the same pieces. -/
def stringsSplit (s : String) (sep : Char) : List String :=
  (splitScan sep [] s.data).map String.mk

/-- The characters of the pieces `as`, each preceded by the separator: what
joining appends after the first piece. -/
def joinTail (sep : Char) : List (List Char) → List Char
  | [] => []
  | a :: as => sep :: (a ++ joinTail sep as)

/-! ## `ArgParse` -/

/-- The file layer of `ArgParse`: the zero value, replaced by the document of
the config file when `-c` is non-empty, loading succeeds and the `database`
pointer is not nil. -/
def fileLayer {File Err : Type} (fs : FileSystem File Err) (genPath : String) :
    CmdParams :=
  if genPath ≠ "" then
    match loadConfigFile fs genPath with
    | .ok (some configFileParams) => configFileParams
    | _ => CmdParams.zero
  else CmdParams.zero

/-- The flag layer of `ArgParse` (the statements under `// cmd first`), one
guarded assignment per flag, in the order of the source. -/
def flagLayer (fl : Flags) (cmdParse : CmdParams) : CmdParams :=
  let cmdParse := if fl.dsn ≠ "" then { cmdParse with DSN := fl.dsn } else cmdParse
  let cmdParse := if fl.db ≠ "" then { cmdParse with DB := fl.db } else cmdParse
  let cmdParse :=
    if fl.tableList ≠ "" then { cmdParse with Tables := stringsSplit fl.tableList ',' }
    else cmdParse
  let cmdParse := if fl.onlyModel then { cmdParse with OnlyModel := true } else cmdParse
  let cmdParse :=
    if fl.outPath ≠ DefaultOutPath then { cmdParse with OutPath := fl.outPath }
    else cmdParse
  let cmdParse := if fl.outFile ≠ "" then { cmdParse with OutFile := fl.outFile } else cmdParse
  let cmdParse :=
    if fl.withUnitTest then { cmdParse with WithUnitTest := fl.withUnitTest } else cmdParse
  let cmdParse :=
    if fl.modelPkgName ≠ "" then { cmdParse with ModelPkgName := fl.modelPkgName }
    else cmdParse
  let cmdParse :=
    if fl.fieldNullable then { cmdParse with FieldNullable := fl.fieldNullable }
    else cmdParse
  let cmdParse :=
    if fl.fieldWithIndexTag then { cmdParse with FieldWithIndexTag := fl.fieldWithIndexTag }
    else cmdParse
  let cmdParse :=
    if fl.fieldWithTypeTag then { cmdParse with FieldWithTypeTag := fl.fieldWithTypeTag }
    else cmdParse
  let cmdParse :=
    if fl.fieldSignable then { cmdParse with FieldSignable := fl.fieldSignable }
    else cmdParse
  cmdParse

/-- Embedding of `ArgParse`, from the flag variables after `flag.Parse()`. -/
def ArgParse {File Err : Type} (fs : FileSystem File Err) (fl : Flags) : CmdParams :=
  flagLayer fl (fileLayer fs fl.genPath)

/-! ## `Connect` -/

/-- The dialector values built by `mysql.Open`, `postgres.Open`, `sqlite.Open`
and `sqlserver.Open` from a DSN; building one reaches no database. -/
inductive Dialector where
  | mysql (dsn : String)
  | postgres (dsn : String)
  | sqlite (dsn : String)
  | sqlserver (dsn : String)
deriving DecidableEq, Repr

/-- The errors `Connect` can return: its own two `fmt.Errorf` values, or the
error handed back by `gorm.Open`. -/
inductive ConnectError (E : Type) where
  | dsnEmpty
  | unknownDB (t : DBType)
  | gorm (e : E)
deriving DecidableEq, Repr

/-- The errors `Connect` builds itself, before any call to `gorm.Open`. -/
def ConnectError.isConfiguration {E : Type} : ConnectError E → Bool
  | .dsnEmpty => true
  | .unknownDB _ => true
  | .gorm _ => false

/-- What a call of `Connect` does: the `gorm.Open` calls it makes, in order,
and the pair it returns. -/
structure ConnectOutcome (Conn E : Type) where
  opens : List Dialector
  result : Except (ConnectError E) Conn

/-- Embedding of `Connect`; `gormOpen` stands for `gorm.Open` on a dialector.
The `switch` of the source is the chain of comparisons below. -/
def Connect {Conn E : Type} (gormOpen : Dialector → Except E Conn) (t : DBType)
    (dsn : String) : ConnectOutcome Conn E :=
  if dsn = "" then
    { opens := [], result := .error .dsnEmpty }
  else if t = DbMySQL then
    { opens := [.mysql dsn], result := (gormOpen (.mysql dsn)).mapError .gorm }
  else if t = DbPostgres then
    { opens := [.postgres dsn], result := (gormOpen (.postgres dsn)).mapError .gorm }
  else if t = DbSQLite then
    { opens := [.sqlite dsn], result := (gormOpen (.sqlite dsn)).mapError .gorm }
  else if t = DbSQLServer then
    { opens := [.sqlserver dsn], result := (gormOpen (.sqlserver dsn)).mapError .gorm }
  else
    { opens := [], result := .error (.unknownDB t) }

/-- A `gorm.Open` that reaches every database. -/
def reachable : Dialector → Except String Dialector := fun d => .ok d

/-- A `gorm.Open` that reaches no database. -/
def unreachable : Dialector → Except String Dialector :=
  fun _ => .error "connection refused"

/-! ## `genModels` -/

/-- The generator methods `genModels` calls, over a generator state `G`:
`g.GetModel(tableName)` (a nil result is `none`), the option constructor
`WithMethod`, and `g.GenerateModel(tableName, opts...)`. -/
structure GeneratorOps (G Method ModelOpt Model : Type) where
  GetModel : G → String → Option Method × G
  WithMethod : Method → ModelOpt
  GenerateModel : G → String → List ModelOpt → Model × G

/-- The error `genModels` builds around a failure of `GetTables`. -/
inductive GenModelsError (E : Type) where
  | getTablesFail (cause : E)
deriving DecidableEq, Repr

/-- What a call of `genModels` does: the pair it returns, how many times it
asked the migrator for the tables, and the generator state it leaves. -/
structure GenOutcome (G Model E : Type) where
  result : Except (GenModelsError E) (List Model)
  getTablesCalls : Nat
  generator : G

/-- Body of the loop of `genModels` for one table. -/
def genOne {G Method ModelOpt Model : Type} (ops : GeneratorOps G Method ModelOpt Model)
    (g : G) (tableName : String) : Model × G :=
  match ops.GetModel g tableName with
  | (some opt, g1) => ops.GenerateModel g1 tableName [ops.WithMethod opt]
  | (none, g1) => ops.GenerateModel g1 tableName []

/-- The loop of `genModels` over `tablesList`: entry `i` of `models` is set from
table `i`, the generator state going from one table to the next. -/
def genLoop {G Method ModelOpt Model : Type} (ops : GeneratorOps G Method ModelOpt Model) :
    G → List String → List Model × G
  | g, [] => ([], g)
  | g, tableName :: rest =>
    let r := genOne ops g tableName
    let rs := genLoop ops r.2 rest
    (r.1 :: rs.1, rs.2)

/-- Embedding of `genModels`; `getTables` stands for
`db.Migrator().GetTables()`. -/
def genModels {G Method ModelOpt Model E : Type} (ops : GeneratorOps G Method ModelOpt Model)
    (getTables : Except E (List String)) (g : G) (tables : List String) :
    GenOutcome G Model E :=
  if tables.length = 0 then
    match getTables with
    | .error err => { result := .error (.getTablesFail err), getTablesCalls := 1, generator := g }
    | .ok tablesList =>
      let r := genLoop ops g tablesList
      { result := .ok r.1, getTablesCalls := 1, generator := r.2 }
  else
    let r := genLoop ops g tables
    { result := .ok r.1, getTablesCalls := 0, generator := r.2 }

/-- The per-table result in the words of the specification: `models` has one
entry per table of `ts`, in the same order, and entry `i` is the model
generated for table `i` (by the generator as the first `i` tables left it),
with the `WithMethod` option when `GetModel` returns a method for that table
and with no option otherwise. -/
def PerTable {G Method ModelOpt Model : Type} (ops : GeneratorOps G Method ModelOpt Model)
    (g : G) (ts : List String) (models : List Model) : Prop :=
  models.length = ts.length ∧
  ∀ (i : Nat) (t : String), ts[i]? = some t →
    models[i]? = some
      (ops.GenerateModel (ops.GetModel (genLoop ops g (ts.take i)).2 t).2 t
        ((ops.GetModel (genLoop ops g (ts.take i)).2 t).1.map ops.WithMethod).toList).1

/-- A generator whose state is the log of its `GenerateModel` calls, with a
method registered for the table `users` only; a model is the table name with
the options it was generated with. -/
def sampleOps : GeneratorOps (List String) String String (String × List String) :=
  { GetModel := fun g t => (if t = "users" then some "UserMethods" else none, g),
    WithMethod := fun m => "WithMethod(" ++ m ++ ")",
    GenerateModel := fun g t opts => ((t, opts), g ++ [t]) }

/-! ## Concrete file systems used by the closed statements -/

/-- A file system with no file at all: every `os.Open` fails. -/
def noFiles : FileSystem String String :=
  { osOpen := fun path => .error ("open " ++ path ++ ": no such file or directory"),
    yamlDecode := fun _ => .error "EOF" }

/-- A file system where every path opens and decodes to the document `doc`. -/
def oneFile (doc : YamlConfig) : FileSystem String String :=
  { osOpen := fun _ => .ok "gen.yml",
    yamlDecode := fun _ => .ok doc }

/-- A file system where every path opens but decoding fails. -/
def badYaml : FileSystem String String :=
  { osOpen := fun _ => .ok "gen.yml",
    yamlDecode := fun _ => .error "yaml: unmarshal errors" }

/-- A sample `database` document of a config file. -/
def sampleParams : CmdParams :=
  { DSN := "x", DB := "postgres", Tables := ["users", "orders"], OnlyModel := true,
    OutPath := "./out", OutFile := "q.go", WithUnitTest := false,
    ModelPkgName := "model", FieldNullable := true, FieldWithIndexTag := false,
    FieldWithTypeTag := true, FieldSignable := false }

/-- A sample config document wrapping `sampleParams`. -/
def sampleDoc : YamlConfig := { Version := "0.1", Database := some sampleParams }


/-! ## The flag layer, one assignment at a time -/

/-- Assignment guarded by the `-dsn` flag. -/
def stepDSN (fl : Flags) (c : CmdParams) : CmdParams :=
  if fl.dsn ≠ "" then { c with DSN := fl.dsn } else c
/-- Assignment guarded by the `-db` flag. -/
def stepDB (fl : Flags) (c : CmdParams) : CmdParams :=
  if fl.db ≠ "" then { c with DB := fl.db } else c
/-- Assignment guarded by the `-tables` flag. -/
def stepTables (fl : Flags) (c : CmdParams) : CmdParams :=
  if fl.tableList ≠ "" then { c with Tables := stringsSplit fl.tableList ',' } else c
/-- Assignment guarded by the `-onlyModel` flag. -/
def stepOnlyModel (fl : Flags) (c : CmdParams) : CmdParams :=
  if fl.onlyModel then { c with OnlyModel := true } else c
/-- Assignment guarded by the `-outPath` flag. -/
def stepOutPath (fl : Flags) (c : CmdParams) : CmdParams :=
  if fl.outPath ≠ DefaultOutPath then { c with OutPath := fl.outPath } else c
/-- Assignment guarded by the `-outFile` flag. -/
def stepOutFile (fl : Flags) (c : CmdParams) : CmdParams :=
  if fl.outFile ≠ "" then { c with OutFile := fl.outFile } else c
/-- Assignment guarded by the `-withUnitTest` flag. -/
def stepWithUnitTest (fl : Flags) (c : CmdParams) : CmdParams :=
  if fl.withUnitTest then { c with WithUnitTest := fl.withUnitTest } else c
/-- Assignment guarded by the `-modelPkgName` flag. -/
def stepModelPkgName (fl : Flags) (c : CmdParams) : CmdParams :=
  if fl.modelPkgName ≠ "" then { c with ModelPkgName := fl.modelPkgName } else c
/-- Assignment guarded by the `-fieldNullable` flag. -/
def stepFieldNullable (fl : Flags) (c : CmdParams) : CmdParams :=
  if fl.fieldNullable then { c with FieldNullable := fl.fieldNullable } else c
/-- Assignment guarded by the `-fieldWithIndexTag` flag. -/
def stepFieldWithIndexTag (fl : Flags) (c : CmdParams) : CmdParams :=
  if fl.fieldWithIndexTag then { c with FieldWithIndexTag := fl.fieldWithIndexTag } else c
/-- Assignment guarded by the `-fieldWithTypeTag` flag. -/
def stepFieldWithTypeTag (fl : Flags) (c : CmdParams) : CmdParams :=
  if fl.fieldWithTypeTag then { c with FieldWithTypeTag := fl.fieldWithTypeTag } else c
/-- Assignment guarded by the `-fieldSignable` flag. -/
def stepFieldSignable (fl : Flags) (c : CmdParams) : CmdParams :=
  if fl.fieldSignable then { c with FieldSignable := fl.fieldSignable } else c

/-- Flags that all differ from their defaults, over a config file that sets
every field to something else. -/
def overridingFlags : Flags :=
  { genPath := "gen.yml", dsn := "root@tcp(127.0.0.1:3306)/db", db := "sqlite",
    tableList := "a,b,c", onlyModel := false, outPath := "./gen", outFile := "gen.go",
    withUnitTest := true, modelPkgName := "entity", fieldNullable := false,
    fieldWithIndexTag := true, fieldWithTypeTag := false, fieldSignable := false }

/-- Flags at their registered defaults, with `-c gen.yml`. -/
def onlyConfigFlag : Flags := { registeredDefaults with genPath := "gen.yml" }

/-- A config document that sets no table list and every boolean to `true`. -/
def boolParams : CmdParams :=
  { DSN := "x", DB := "sqlite", Tables := [], OnlyModel := true, OutPath := "",
    OutFile := "", WithUnitTest := true, ModelPkgName := "", FieldNullable := true,
    FieldWithIndexTag := true, FieldWithTypeTag := true, FieldSignable := true }

/-- A config document wrapping `boolParams`. -/
def boolDoc : YamlConfig := { Version := "", Database := some boolParams }

/-- The flags of `overridingFlags` without `-dsn`. -/
def noDsnFlags : Flags := { overridingFlags with dsn := "" }

/-- The flags of `overridingFlags` without `-tables`. -/
def noTablesFlags : Flags := { overridingFlags with tableList := "" }

/-! # Theorems -/

/-! ## `strings.Split` -/

theorem intercalate_go_data (sep : Char) (s acc : String) (hs : s.data = [sep])
    (l : List String) :
    (String.intercalate.go acc s l).data = acc.data ++ joinTail sep (l.map String.data) := by
  induction l generalizing acc with
  | nil => simp [String.intercalate.go, joinTail]
  | cons a as ih =>
    simp [String.intercalate.go, ih, joinTail, hs]

theorem splitScan_no_sep (sep : Char) (l cur : List Char) (hc : sep ∉ cur) :
    ∀ p ∈ splitScan sep cur l, sep ∉ p := by
  induction l generalizing cur with
  | nil => simpa [splitScan] using hc
  | cons c cs ih =>
    unfold splitScan
    split
    · intro p hp
      rcases List.mem_cons.1 hp with h | h
      · subst h; simpa using hc
      · exact ih [] (by simp) p h
    · rename_i hne
      apply ih
      simp only [List.mem_cons, not_or]
      exact ⟨fun h => hne h.symm, hc⟩

theorem splitScan_join (sep : Char) (l cur : List Char) :
    ∃ p ps, splitScan sep cur l = p :: ps ∧ p ++ joinTail sep ps = cur.reverse ++ l := by
  induction l generalizing cur with
  | nil => exact ⟨cur.reverse, [], by simp [splitScan], by simp [joinTail]⟩
  | cons c cs ih =>
    unfold splitScan
    split
    · rename_i h
      obtain ⟨p, ps, h1, h2⟩ := ih []
      refine ⟨cur.reverse, p :: ps, by rw [h1], ?_⟩
      simp only [joinTail, h2, h]
      simp
    · obtain ⟨p, ps, h1, h2⟩ := ih (c :: cur)
      exact ⟨p, ps, h1, by simpa using h2⟩

theorem splitScan_append (sep : Char) (p rest cur : List Char) (hp : sep ∉ p) :
    splitScan sep cur (p ++ rest) = splitScan sep (p.reverse ++ cur) rest := by
  induction p generalizing cur with
  | nil => rfl
  | cons c cs ih =>
    have hc : c ≠ sep := fun h => hp (by simp [h])
    have hcs : sep ∉ cs := fun h => hp (by simp [h])
    have h1 : splitScan sep cur (c :: (cs ++ rest)) = splitScan sep (c :: cur) (cs ++ rest) := by
      simp [splitScan, hc]
    rw [List.cons_append, h1, ih (c :: cur) hcs]
    simp

theorem splitScan_unique (sep : Char) (ps : List (List Char)) (p cur : List Char)
    (h : ∀ q ∈ p :: ps, sep ∉ q) :
    splitScan sep cur (p ++ joinTail sep ps) = (cur.reverse ++ p) :: ps := by
  induction ps generalizing p cur with
  | nil =>
    rw [splitScan_append sep p _ cur (h p (by simp))]
    simp [joinTail, splitScan]
  | cons q qs ih =>
    rw [splitScan_append sep p _ cur (h p (by simp))]
    simp only [joinTail, splitScan, if_true]
    have := ih q [] (fun r hr => h r (List.mem_cons_of_mem _ hr))
    simp only [List.reverse_nil, List.nil_append] at this
    rw [this]
    simp


theorem stringsSplit_no_sep (s : String) (sep : Char) :
    ∀ p ∈ stringsSplit s sep, sep ∉ p.data := by
  intro p hp
  obtain ⟨q, hq, rfl⟩ := List.mem_map.1 hp
  exact splitScan_no_sep sep s.data [] (by simp) q hq

theorem stringsSplit_join (s : String) :
    String.intercalate "," (stringsSplit s ',') = s := by
  obtain ⟨p, ps, h1, h2⟩ := splitScan_join ',' s.data []
  apply String.ext
  simp only [stringsSplit, h1, List.map_cons, String.intercalate]
  rw [intercalate_go_data ',' "," _ rfl]
  simpa [Function.comp_def] using h2

theorem stringsSplit_unique (s : String) (ps : List String) (hs : s ≠ "")
    (hps : ∀ p ∈ ps, ',' ∉ p.data) (hj : String.intercalate "," ps = s) :
    stringsSplit s ',' = ps := by
  cases ps with
  | nil => exact absurd hj.symm hs
  | cons p ps =>
    have hd : s.data = p.data ++ joinTail ',' (ps.map String.data) := by
      rw [← hj]; simp only [String.intercalate]
      exact intercalate_go_data ',' "," _ rfl _
    have hu := splitScan_unique ',' (ps.map String.data) p.data [] (by
      intro q hq
      rcases List.mem_cons.1 hq with h | h
      · subst h; exact hps p (by simp)
      · obtain ⟨r, hr, rfl⟩ := List.mem_map.1 h
        exact hps r (List.mem_cons_of_mem _ hr))
    simp only [stringsSplit, hd, hu]
    simp [Function.comp_def]

/-! ## Closed form of the flag layer -/

theorem flagLayer_steps (fl : Flags) (c : CmdParams) :
    flagLayer fl c =
      stepFieldSignable fl (stepFieldWithTypeTag fl (stepFieldWithIndexTag fl
        (stepFieldNullable fl (stepModelPkgName fl (stepWithUnitTest fl
          (stepOutFile fl (stepOutPath fl (stepOnlyModel fl (stepTables fl
            (stepDB fl (stepDSN fl c))))))))))) := rfl

theorem stepDSN_eq (fl : Flags) (c : CmdParams) :
    stepDSN fl c = { c with DSN := if fl.dsn ≠ "" then fl.dsn else c.DSN } := by
  unfold stepDSN; split <;> simp_all

theorem stepDB_eq (fl : Flags) (c : CmdParams) :
    stepDB fl c = { c with DB := if fl.db ≠ "" then fl.db else c.DB } := by
  unfold stepDB; split <;> simp_all

theorem stepTables_eq (fl : Flags) (c : CmdParams) :
    stepTables fl c =
      { c with Tables := if fl.tableList ≠ "" then stringsSplit fl.tableList ',' else c.Tables } := by
  unfold stepTables; split <;> simp_all

theorem stepOnlyModel_eq (fl : Flags) (c : CmdParams) :
    stepOnlyModel fl c = { c with OnlyModel := c.OnlyModel || fl.onlyModel } := by
  unfold stepOnlyModel; split <;> simp_all

theorem stepOutPath_eq (fl : Flags) (c : CmdParams) :
    stepOutPath fl c =
      { c with OutPath := if fl.outPath ≠ DefaultOutPath then fl.outPath else c.OutPath } := by
  unfold stepOutPath; split <;> simp_all

theorem stepOutFile_eq (fl : Flags) (c : CmdParams) :
    stepOutFile fl c = { c with OutFile := if fl.outFile ≠ "" then fl.outFile else c.OutFile } := by
  unfold stepOutFile; split <;> simp_all

theorem stepWithUnitTest_eq (fl : Flags) (c : CmdParams) :
    stepWithUnitTest fl c = { c with WithUnitTest := c.WithUnitTest || fl.withUnitTest } := by
  unfold stepWithUnitTest; split <;> simp_all

theorem stepModelPkgName_eq (fl : Flags) (c : CmdParams) :
    stepModelPkgName fl c =
      { c with ModelPkgName := if fl.modelPkgName ≠ "" then fl.modelPkgName else c.ModelPkgName } := by
  unfold stepModelPkgName; split <;> simp_all

theorem stepFieldNullable_eq (fl : Flags) (c : CmdParams) :
    stepFieldNullable fl c = { c with FieldNullable := c.FieldNullable || fl.fieldNullable } := by
  unfold stepFieldNullable; split <;> simp_all

theorem stepFieldWithIndexTag_eq (fl : Flags) (c : CmdParams) :
    stepFieldWithIndexTag fl c =
      { c with FieldWithIndexTag := c.FieldWithIndexTag || fl.fieldWithIndexTag } := by
  unfold stepFieldWithIndexTag; split <;> simp_all

theorem stepFieldWithTypeTag_eq (fl : Flags) (c : CmdParams) :
    stepFieldWithTypeTag fl c =
      { c with FieldWithTypeTag := c.FieldWithTypeTag || fl.fieldWithTypeTag } := by
  unfold stepFieldWithTypeTag; split <;> simp_all

theorem stepFieldSignable_eq (fl : Flags) (c : CmdParams) :
    stepFieldSignable fl c = { c with FieldSignable := c.FieldSignable || fl.fieldSignable } := by
  unfold stepFieldSignable; split <;> simp_all

/-- Closed form of the flag layer: every field of the result, as a function of
the flag and of the field of the file layer. -/
theorem flagLayer_eq (fl : Flags) (c : CmdParams) :
    flagLayer fl c =
      { DSN := if fl.dsn ≠ "" then fl.dsn else c.DSN,
        DB := if fl.db ≠ "" then fl.db else c.DB,
        Tables := if fl.tableList ≠ "" then stringsSplit fl.tableList ',' else c.Tables,
        OnlyModel := c.OnlyModel || fl.onlyModel,
        OutPath := if fl.outPath ≠ DefaultOutPath then fl.outPath else c.OutPath,
        OutFile := if fl.outFile ≠ "" then fl.outFile else c.OutFile,
        WithUnitTest := c.WithUnitTest || fl.withUnitTest,
        ModelPkgName := if fl.modelPkgName ≠ "" then fl.modelPkgName else c.ModelPkgName,
        FieldNullable := c.FieldNullable || fl.fieldNullable,
        FieldWithIndexTag := c.FieldWithIndexTag || fl.fieldWithIndexTag,
        FieldWithTypeTag := c.FieldWithTypeTag || fl.fieldWithTypeTag,
        FieldSignable := c.FieldSignable || fl.fieldSignable } := by
  rw [flagLayer_steps, stepDSN_eq, stepDB_eq, stepTables_eq, stepOnlyModel_eq, stepOutPath_eq,
    stepOutFile_eq, stepWithUnitTest_eq, stepModelPkgName_eq, stepFieldNullable_eq,
    stepFieldWithIndexTag_eq, stepFieldWithTypeTag_eq, stepFieldSignable_eq]

theorem fileLayer_empty {File Err : Type} (fs : FileSystem File Err) :
    fileLayer fs "" = CmdParams.zero := by
  simp [fileLayer]

theorem fileLayer_error {File Err : Type} (fs : FileSystem File Err) (path : String) (e : Err)
    (h : loadConfigFile fs path = .error e) : fileLayer fs path = CmdParams.zero := by
  unfold fileLayer; split
  · rw [h]
  · rfl

theorem fileLayer_nil {File Err : Type} (fs : FileSystem File Err) (path : String)
    (h : loadConfigFile fs path = .ok none) : fileLayer fs path = CmdParams.zero := by
  unfold fileLayer; split
  · rw [h]
  · rfl

theorem fileLayer_some {File Err : Type} (fs : FileSystem File Err) (path : String)
    (p : CmdParams) (hp : path ≠ "") (h : loadConfigFile fs path = .ok (some p)) :
    fileLayer fs path = p := by
  unfold fileLayer; rw [if_pos hp, h]


theorem loadConfigFile_open_error {File Err : Type} (fs : FileSystem File Err) (path : String)
    (e : Err) (h : fs.osOpen path = .error e) : loadConfigFile fs path = .error e := by
  simp [loadConfigFile, h]

theorem loadConfigFile_decode_error {File Err : Type} (fs : FileSystem File Err) (path : String)
    (file : File) (e : Err) (ho : fs.osOpen path = .ok file)
    (hd : fs.yamlDecode file = .error e) : loadConfigFile fs path = .error e := by
  simp [loadConfigFile, ho, hd]

/-- With every flag but `-c` at its registered default, the result is the
document of the file with its `DB` replaced by `"mysql"`. -/
theorem ArgParse_defaults_over_file {File Err : Type} (fs : FileSystem File Err)
    (path : String) (p : CmdParams) (hp : path ≠ "")
    (h : loadConfigFile fs path = .ok (some p)) :
    ArgParse fs { registeredDefaults with genPath := path } = { p with DB := "mysql" } := by
  unfold ArgParse
  rw [flagLayer_eq, fileLayer_some fs path p hp h]
  simp [registeredDefaults, DefaultOutPath]

/-! ## Claims on `ArgParse` -/

/-- C1: for every file system (any config file or none) and every flag state,
a non-empty `-dsn`, `-db`, `-outFile` or `-modelPkgName` value, and an
`-outPath` value different from `"./dao/query"`, is the value of the
corresponding field of the parameters returned by `ArgParse`. -/
theorem ArgParse_flag_overrides {File Err : Type} (fs : FileSystem File Err) (fl : Flags) :
    (fl.dsn ≠ "" → (ArgParse fs fl).DSN = fl.dsn) ∧
    (fl.db ≠ "" → (ArgParse fs fl).DB = fl.db) ∧
    (fl.outFile ≠ "" → (ArgParse fs fl).OutFile = fl.outFile) ∧
    (fl.modelPkgName ≠ "" → (ArgParse fs fl).ModelPkgName = fl.modelPkgName) ∧
    (fl.outPath ≠ "./dao/query" → (ArgParse fs fl).OutPath = fl.outPath) := by
  unfold ArgParse
  rw [flagLayer_eq]
  exact ⟨fun h => if_pos h, fun h => if_pos h, fun h => if_pos h, fun h => if_pos h,
    fun h => if_pos h⟩


/-- Witness of C1: the five flags of `overridingFlags` reach the result over a
config file that sets all five fields differently. -/
theorem ArgParse_flag_overrides_witness :
    (ArgParse (oneFile sampleDoc) overridingFlags).DSN = "root@tcp(127.0.0.1:3306)/db" ∧
    (ArgParse (oneFile sampleDoc) overridingFlags).DB = "sqlite" ∧
    (ArgParse (oneFile sampleDoc) overridingFlags).OutFile = "gen.go" ∧
    (ArgParse (oneFile sampleDoc) overridingFlags).ModelPkgName = "entity" ∧
    (ArgParse (oneFile sampleDoc) overridingFlags).OutPath = "./gen" :=
  ⟨(ArgParse_flag_overrides (oneFile sampleDoc) overridingFlags).1 (by decide),
   (ArgParse_flag_overrides (oneFile sampleDoc) overridingFlags).2.1 (by decide),
   (ArgParse_flag_overrides (oneFile sampleDoc) overridingFlags).2.2.1 (by decide),
   (ArgParse_flag_overrides (oneFile sampleDoc) overridingFlags).2.2.2.1 (by decide),
   (ArgParse_flag_overrides (oneFile sampleDoc) overridingFlags).2.2.2.2 (by decide)⟩

/-- C2, evaluated where it fails: the config file parses, its `database.db` is
`"postgres"` and no flag but `-c` is given, yet the driver returned by
`ArgParse` is the flag default `"mysql"`; every other field is the one of the
file. -/
theorem ArgParse_file_db_lost :
    loadConfigFile (oneFile sampleDoc) onlyConfigFlag.genPath = .ok (some sampleParams) ∧
    sampleParams.DB = "postgres" ∧
    (ArgParse (oneFile sampleDoc) onlyConfigFlag).DB = "mysql" ∧
    ArgParse (oneFile sampleDoc) onlyConfigFlag = { sampleParams with DB := "mysql" } :=
  ⟨rfl, rfl, by decide, by decide⟩

/-- C3, evaluated where it fails: with no config file and no flag the driver
is `"mysql"`, but the output path returned by `ArgParse` is the empty string,
not `DefaultOutPath`; this holds whatever the file system is. -/
theorem ArgParse_no_flags_outPath_empty {File Err : Type} (fs : FileSystem File Err) :
    (ArgParse fs registeredDefaults).DB = "mysql" ∧
    (ArgParse fs registeredDefaults).OutPath = "" ∧
    (ArgParse fs registeredDefaults).OutPath ≠ DefaultOutPath ∧
    ArgParse fs registeredDefaults = { CmdParams.zero with DB := "mysql" } := by
  have h : ArgParse fs registeredDefaults = { CmdParams.zero with DB := "mysql" } := by
    unfold ArgParse
    rw [flagLayer_eq, show registeredDefaults.genPath = "" from rfl, fileLayer_empty]
    decide
  rw [h]
  exact ⟨rfl, rfl, by decide, rfl⟩

/-- C4: for every non-empty value of `-tables` and every file system, the
table list returned by `ArgParse` is `strings.Split` of the value on `","`: no
piece contains a comma, joining the pieces with `","` gives the value back, and
it is the only list of comma-free pieces that does; no table of the file
remains. -/
theorem ArgParse_tables_split {File Err : Type} (fs : FileSystem File Err) (fl : Flags)
    (h : fl.tableList ≠ "") :
    (ArgParse fs fl).Tables = stringsSplit fl.tableList ',' ∧
    (∀ p ∈ (ArgParse fs fl).Tables, ',' ∉ p.data) ∧
    String.intercalate "," (ArgParse fs fl).Tables = fl.tableList ∧
    (∀ ps : List String, (∀ p ∈ ps, ',' ∉ p.data) →
      String.intercalate "," ps = fl.tableList → (ArgParse fs fl).Tables = ps) := by
  have ht : (ArgParse fs fl).Tables = stringsSplit fl.tableList ',' := by
    unfold ArgParse
    rw [flagLayer_eq]
    exact if_pos h
  rw [ht]
  exact ⟨rfl, stringsSplit_no_sep _ _, stringsSplit_join _,
    fun ps hps hj => stringsSplit_unique _ ps h hps hj⟩

/-- Witness of C4: `-tables "a,b,c"` over a file listing `users` and `orders`
yields `["a", "b", "c"]`. -/
theorem ArgParse_tables_split_witness :
    sampleParams.Tables = ["users", "orders"] ∧
    (ArgParse (oneFile sampleDoc) overridingFlags).Tables = ["a", "b", "c"] :=
  ⟨rfl, (ArgParse_tables_split (oneFile sampleDoc) overridingFlags (by decide)).1.trans
    (by decide)⟩


/-- C5: each of the six boolean fields returned by `ArgParse` is the logical OR
of the value in the config file and the flag; when no document is loaded (no
`-c`, a load error, or a nil `database`) the file side is `false` and the field
is the flag. -/
theorem ArgParse_bool_or {File Err : Type} (fs : FileSystem File Err) (fl : Flags) :
    (∀ p : CmdParams, fl.genPath ≠ "" → loadConfigFile fs fl.genPath = .ok (some p) →
      (ArgParse fs fl).OnlyModel = (p.OnlyModel || fl.onlyModel) ∧
      (ArgParse fs fl).WithUnitTest = (p.WithUnitTest || fl.withUnitTest) ∧
      (ArgParse fs fl).FieldNullable = (p.FieldNullable || fl.fieldNullable) ∧
      (ArgParse fs fl).FieldWithIndexTag = (p.FieldWithIndexTag || fl.fieldWithIndexTag) ∧
      (ArgParse fs fl).FieldWithTypeTag = (p.FieldWithTypeTag || fl.fieldWithTypeTag) ∧
      (ArgParse fs fl).FieldSignable = (p.FieldSignable || fl.fieldSignable)) ∧
    ((fl.genPath = "" ∨ (∃ e, loadConfigFile fs fl.genPath = .error e) ∨
        loadConfigFile fs fl.genPath = .ok none) →
      (ArgParse fs fl).OnlyModel = (false || fl.onlyModel) ∧
      (ArgParse fs fl).WithUnitTest = (false || fl.withUnitTest) ∧
      (ArgParse fs fl).FieldNullable = (false || fl.fieldNullable) ∧
      (ArgParse fs fl).FieldWithIndexTag = (false || fl.fieldWithIndexTag) ∧
      (ArgParse fs fl).FieldWithTypeTag = (false || fl.fieldWithTypeTag) ∧
      (ArgParse fs fl).FieldSignable = (false || fl.fieldSignable)) := by
  constructor
  · intro p hp hl
    unfold ArgParse
    rw [flagLayer_eq, fileLayer_some fs _ p hp hl]
    exact ⟨rfl, rfl, rfl, rfl, rfl, rfl⟩
  · intro h
    have hz : fileLayer fs fl.genPath = CmdParams.zero := by
      rcases h with h | ⟨e, h⟩ | h
      · rw [h]; exact fileLayer_empty fs
      · exact fileLayer_error fs _ e h
      · exact fileLayer_nil fs _ h
    unfold ArgParse
    rw [flagLayer_eq, hz]
    exact ⟨rfl, rfl, rfl, rfl, rfl, rfl⟩

/-- Witness of C5: a file that sets the six booleans stays in force when no
boolean flag is given, and without a file the fields are the flags. -/
theorem ArgParse_bool_or_witness :
    ((ArgParse (oneFile boolDoc) onlyConfigFlag).OnlyModel = true ∧
      (ArgParse (oneFile boolDoc) onlyConfigFlag).WithUnitTest = true ∧
      (ArgParse (oneFile boolDoc) onlyConfigFlag).FieldNullable = true ∧
      (ArgParse (oneFile boolDoc) onlyConfigFlag).FieldWithIndexTag = true ∧
      (ArgParse (oneFile boolDoc) onlyConfigFlag).FieldWithTypeTag = true ∧
      (ArgParse (oneFile boolDoc) onlyConfigFlag).FieldSignable = true) ∧
    ((ArgParse noFiles overridingFlags).OnlyModel = false ∧
      (ArgParse noFiles overridingFlags).WithUnitTest = true ∧
      (ArgParse noFiles overridingFlags).FieldNullable = false ∧
      (ArgParse noFiles overridingFlags).FieldWithIndexTag = true ∧
      (ArgParse noFiles overridingFlags).FieldWithTypeTag = false ∧
      (ArgParse noFiles overridingFlags).FieldSignable = false) :=
  ⟨(ArgParse_bool_or (oneFile boolDoc) onlyConfigFlag).1 boolParams (by decide) rfl,
   (ArgParse_bool_or noFiles overridingFlags).2 (Or.inr (Or.inl ⟨_, rfl⟩))⟩

/-- C6: when the path of `-c` cannot be opened, or opens but fails YAML
decoding, `ArgParse` returns exactly what it returns for the same flags with an
empty `-c`, which is the flag layer over the zero value: nothing of the file
reaches the result. -/
theorem ArgParse_unreadable_file {File Err : Type} (fs : FileSystem File Err) (fl : Flags)
    (h : (∃ e, fs.osOpen fl.genPath = .error e) ∨
      (∃ file e, fs.osOpen fl.genPath = .ok file ∧ fs.yamlDecode file = .error e)) :
    ArgParse fs fl = ArgParse fs { fl with genPath := "" } ∧
    ArgParse fs fl = flagLayer fl CmdParams.zero := by
  have hz : fileLayer fs fl.genPath = CmdParams.zero := by
    rcases h with ⟨e, h⟩ | ⟨file, e, ho, hd⟩
    · exact fileLayer_error fs _ e (loadConfigFile_open_error fs _ e h)
    · exact fileLayer_error fs _ e (loadConfigFile_decode_error fs _ file e ho hd)
  unfold ArgParse
  rw [hz]
  refine ⟨?_, rfl⟩
  rw [flagLayer_eq, flagLayer_eq, fileLayer_empty]

/-- Witness of C6: a config file that opens but does not decode, and a path
that does not open. -/
theorem ArgParse_unreadable_file_witness :
    ArgParse badYaml overridingFlags = ArgParse badYaml { overridingFlags with genPath := "" } ∧
    ArgParse noFiles overridingFlags = flagLayer overridingFlags CmdParams.zero :=
  ⟨(ArgParse_unreadable_file badYaml overridingFlags (Or.inr ⟨_, _, rfl, rfl⟩)).1,
   (ArgParse_unreadable_file noFiles overridingFlags (Or.inl ⟨_, rfl⟩)).2⟩

/-- C8: when the config file parses with `database.dsn` equal to `x` and the
`-dsn` flag is empty, the `DSN` returned by `ArgParse` is `x`, whatever the
other flags are. -/
theorem ArgParse_file_dsn {File Err : Type} (fs : FileSystem File Err) (fl : Flags)
    (p : CmdParams) (x : String) (hc : fl.genPath ≠ "")
    (hl : loadConfigFile fs fl.genPath = .ok (some p)) (hx : p.DSN = x) (hd : fl.dsn = "") :
    (ArgParse fs fl).DSN = x := by
  unfold ArgParse
  rw [flagLayer_eq, fileLayer_some fs _ p hc hl]
  simp [hd, hx]

/-- Witness of C8: a file with `dsn: "x"`, every flag but `-dsn` given. -/
theorem ArgParse_file_dsn_witness :
    noDsnFlags.dsn = "" ∧ (ArgParse (oneFile sampleDoc) noDsnFlags).DSN = "x" :=
  ⟨rfl, ArgParse_file_dsn (oneFile sampleDoc) noDsnFlags sampleParams "x" (by decide) rfl rfl rfl⟩

/-- C9: when `-tables` is empty and the config file is absent, fails to load,
has no `database` object, or has one without tables, the table list returned
by `ArgParse` is empty, whatever the other flags and file fields are. -/
theorem ArgParse_tables_empty {File Err : Type} (fs : FileSystem File Err) (fl : Flags)
    (ht : fl.tableList = "")
    (hf : fl.genPath = "" ∨ (∃ e, loadConfigFile fs fl.genPath = .error e) ∨
      loadConfigFile fs fl.genPath = .ok none ∨
      (∃ p, loadConfigFile fs fl.genPath = .ok (some p) ∧ p.Tables = [])) :
    (ArgParse fs fl).Tables = [] := by
  have hz : (fileLayer fs fl.genPath).Tables = [] := by
    rcases hf with h | ⟨e, h⟩ | h | ⟨p, h, hp⟩
    · rw [h, fileLayer_empty]; rfl
    · rw [fileLayer_error fs _ e h]; rfl
    · rw [fileLayer_nil fs _ h]; rfl
    · by_cases hg : fl.genPath = ""
      · rw [hg, fileLayer_empty]; rfl
      · rw [fileLayer_some fs _ p hg h]; exact hp
  unfold ArgParse
  rw [flagLayer_eq]
  simp [ht, hz]

/-- Witness of C9: a file that sets everything but the tables, and every flag
but `-tables`. -/
theorem ArgParse_tables_empty_witness :
    noTablesFlags.tableList = "" ∧ (ArgParse (oneFile boolDoc) noTablesFlags).Tables = [] :=
  ⟨rfl, ArgParse_tables_empty (oneFile boolDoc) noTablesFlags rfl
    (Or.inr (Or.inr (Or.inr ⟨boolParams, rfl, rfl⟩)))⟩


/-! ## Claim on `Connect` -/

/-- C7: `Connect` returns one of its own configuration errors with no
`gorm.Open` call exactly when the DSN is empty or the type is none of
`"mysql"`, `"postgres"`, `"sqlite"`, `"sqlserver"`; for a non-empty DSN and one
of the four types it makes the single `gorm.Open` call on that dialector with
the same DSN and returns its result. -/
theorem Connect_dispatch {Conn E : Type} (gormOpen : Dialector → Except E Conn)
    (t : DBType) (dsn : String) :
    (((∃ e, (Connect gormOpen t dsn).result = .error e ∧ e.isConfiguration = true) ∧
        (Connect gormOpen t dsn).opens = []) ↔
      (dsn = "" ∨ (t ≠ "mysql" ∧ t ≠ "postgres" ∧ t ≠ "sqlite" ∧ t ≠ "sqlserver"))) ∧
    (dsn ≠ "" →
      (t = "mysql" → Connect gormOpen t dsn =
        { opens := [.mysql dsn], result := (gormOpen (.mysql dsn)).mapError .gorm }) ∧
      (t = "postgres" → Connect gormOpen t dsn =
        { opens := [.postgres dsn], result := (gormOpen (.postgres dsn)).mapError .gorm }) ∧
      (t = "sqlite" → Connect gormOpen t dsn =
        { opens := [.sqlite dsn], result := (gormOpen (.sqlite dsn)).mapError .gorm }) ∧
      (t = "sqlserver" → Connect gormOpen t dsn =
        { opens := [.sqlserver dsn], result := (gormOpen (.sqlserver dsn)).mapError .gorm })) := by
  have part2 : dsn ≠ "" →
      (t = "mysql" → Connect gormOpen t dsn =
        { opens := [.mysql dsn], result := (gormOpen (.mysql dsn)).mapError .gorm }) ∧
      (t = "postgres" → Connect gormOpen t dsn =
        { opens := [.postgres dsn], result := (gormOpen (.postgres dsn)).mapError .gorm }) ∧
      (t = "sqlite" → Connect gormOpen t dsn =
        { opens := [.sqlite dsn], result := (gormOpen (.sqlite dsn)).mapError .gorm }) ∧
      (t = "sqlserver" → Connect gormOpen t dsn =
        { opens := [.sqlserver dsn], result := (gormOpen (.sqlserver dsn)).mapError .gorm }) := by
    intro hd
    refine ⟨fun h => ?_, fun h => ?_, fun h => ?_, fun h => ?_⟩ <;> subst h <;>
      simp [Connect, hd, DbMySQL, DbPostgres, DbSQLite, DbSQLServer]
  refine ⟨⟨fun h => ?_, fun h => ?_⟩, part2⟩
  · by_cases hd : dsn = ""
    · exact Or.inl hd
    · refine Or.inr ⟨fun h1 => ?_, fun h2 => ?_, fun h3 => ?_, fun h4 => ?_⟩
      · have ho := h.2; rw [(part2 hd).1 h1] at ho; simp at ho
      · have ho := h.2; rw [(part2 hd).2.1 h2] at ho; simp at ho
      · have ho := h.2; rw [(part2 hd).2.2.1 h3] at ho; simp at ho
      · have ho := h.2; rw [(part2 hd).2.2.2 h4] at ho; simp at ho
  · by_cases hd : dsn = ""
    · have hc : Connect gormOpen t dsn = { opens := [], result := .error .dsnEmpty } := by
        simp [Connect, hd]
      rw [hc]
      exact ⟨⟨.dsnEmpty, rfl, rfl⟩, rfl⟩
    · rcases h with h | ⟨h1, h2, h3, h4⟩
      · exact absurd h hd
      · have hc : Connect gormOpen t dsn =
            { opens := [], result := .error (.unknownDB t) } := by
          simp [Connect, hd, h1, h2, h3, h4, DbMySQL, DbPostgres, DbSQLite, DbSQLServer]
        rw [hc]
        exact ⟨⟨.unknownDB t, rfl, rfl⟩, rfl⟩

/-- Witness of C7: an empty DSN and an unknown type are refused with no call,
and `"postgres"` with a DSN opens the postgres dialector on that DSN and
returns what `gorm.Open` returns, a connection or its error. -/
theorem Connect_dispatch_witness :
    (Connect reachable "mysql" "").opens = [] ∧
    (Connect reachable "oracle" "host=db").opens = [] ∧
    Connect reachable "postgres" "host=db" =
      { opens := [.postgres "host=db"], result := .ok (.postgres "host=db") } ∧
    Connect unreachable "postgres" "host=db" =
      { opens := [.postgres "host=db"], result := .error (.gorm "connection refused") } :=
  ⟨((Connect_dispatch reachable "mysql" "").1.2 (Or.inl rfl)).2,
   ((Connect_dispatch reachable "oracle" "host=db").1.2
      (Or.inr ⟨by decide, by decide, by decide, by decide⟩)).2,
   ((Connect_dispatch reachable "postgres" "host=db").2 (by decide)).2.1 rfl,
   ((Connect_dispatch unreachable "postgres" "host=db").2 (by decide)).2.1 rfl⟩


/-! ## Claim on `genModels` -/

theorem genOne_eq {G Method ModelOpt Model : Type} (ops : GeneratorOps G Method ModelOpt Model)
    (g : G) (t : String) :
    genOne ops g t =
      ops.GenerateModel (ops.GetModel g t).2 t
        ((ops.GetModel g t).1.map ops.WithMethod).toList := by
  unfold genOne
  rcases ops.GetModel g t with ⟨_ | opt, g1⟩ <;> rfl

theorem genLoop_length {G Method ModelOpt Model : Type}
    (ops : GeneratorOps G Method ModelOpt Model) (ts : List String) (g : G) :
    (genLoop ops g ts).1.length = ts.length := by
  induction ts generalizing g with
  | nil => rfl
  | cons t ts ih => simp [genLoop, ih]

theorem genLoop_getElem {G Method ModelOpt Model : Type}
    (ops : GeneratorOps G Method ModelOpt Model) (ts : List String) (g : G) (i : Nat)
    (t : String) (h : ts[i]? = some t) :
    (genLoop ops g ts).1[i]? = some (genOne ops (genLoop ops g (ts.take i)).2 t).1 := by
  induction ts generalizing g i with
  | nil => simp at h
  | cons u us ih =>
    cases i with
    | zero =>
      simp only [List.getElem?_cons_zero, Option.some.injEq] at h
      subst h
      simp [genLoop]
    | succ j =>
      simp only [List.getElem?_cons_succ] at h
      simp only [genLoop, List.getElem?_cons_succ, List.take_succ_cons]
      exact ih _ j h

theorem genLoop_perTable {G Method ModelOpt Model : Type}
    (ops : GeneratorOps G Method ModelOpt Model) (ts : List String) (g : G) :
    PerTable ops g ts (genLoop ops g ts).1 := by
  refine ⟨genLoop_length ops ts g, fun i t h => ?_⟩
  rw [genLoop_getElem ops ts g i t h, genOne_eq]

/-- C10: for a non-empty table list `genModels` returns, with no error and no
`GetTables` call, one model per listed table in the same order, each generated
with the `WithMethod` option exactly when `GetModel` returns a method for the
table; for an empty list it asks the migrator once and returns the same
per-table result over the reported tables, or, when `GetTables` fails, no
model and the wrapped error. -/
theorem genModels_perTable {G Method ModelOpt Model E : Type}
    (ops : GeneratorOps G Method ModelOpt Model) (getTables : Except E (List String))
    (g : G) (tables : List String) :
    (tables ≠ [] →
      (genModels ops getTables g tables).getTablesCalls = 0 ∧
      ∃ models, (genModels ops getTables g tables).result = .ok models ∧
        PerTable ops g tables models) ∧
    (tables = [] → ∀ l, getTables = .ok l →
      (genModels ops getTables g tables).getTablesCalls = 1 ∧
      ∃ models, (genModels ops getTables g tables).result = .ok models ∧
        PerTable ops g l models) ∧
    (tables = [] → ∀ e, getTables = .error e →
      (genModels ops getTables g tables).result = .error (.getTablesFail e) ∧
      (genModels ops getTables g tables).generator = g) := by
  refine ⟨fun h => ?_, fun h l hl => ?_, fun h e he => ?_⟩
  · have hlen : ¬ tables.length = 0 := fun h0 => h (List.length_eq_zero.1 h0)
    unfold genModels
    rw [if_neg hlen]
    exact ⟨rfl, _, rfl, genLoop_perTable ops tables g⟩
  · subst h
    subst hl
    exact ⟨rfl, _, rfl, genLoop_perTable ops l g⟩
  · subst h
    subst he
    exact ⟨rfl, rfl⟩

/-- Witness of C10: two listed tables with a method registered for `users`
only and a migrator that would fail if it were asked; then no listed table,
with a migrator that reports the same two tables, and with one that fails. -/
theorem genModels_perTable_witness :
    ((genModels sampleOps (.error "no database") [] ["orders", "users"]).getTablesCalls = 0 ∧
      ∃ models,
        (genModels sampleOps (.error "no database") [] ["orders", "users"]).result
          = .ok models ∧
        PerTable sampleOps [] ["orders", "users"] models) ∧
    (genModels sampleOps (.error "no database") [] ["orders", "users"]).result =
      .ok [("orders", []), ("users", ["WithMethod(UserMethods)"])] ∧
    ((genModels sampleOps (Except.ok ["orders", "users"] : Except String (List String))
        [] []).getTablesCalls = 1 ∧
      ∃ models,
        (genModels sampleOps (Except.ok ["orders", "users"] : Except String (List String))
          [] []).result = .ok models ∧
        PerTable sampleOps [] ["orders", "users"] models) ∧
    ((genModels sampleOps (.error "no database") [] []).result =
        .error (.getTablesFail "no database") ∧
      (genModels sampleOps (.error "no database") [] []).generator = []) :=
  ⟨(genModels_perTable sampleOps (.error "no database") [] ["orders", "users"]).1 (by decide),
   rfl,
   (genModels_perTable sampleOps (.ok ["orders", "users"]) [] []).2.1 rfl _ rfl,
   (genModels_perTable sampleOps (.error "no database") [] []).2.2 rfl _ rfl⟩

end Gen
